import Mathlib

/-!
# Verification of the life-sim chemical-reaction engine

Shallow embedding of `src/backend/src/lib.rs` (and `src/backend/src/genome.rs`):
the chemical data model, the three gene kinds (`Emitter`, `Reaction`, `Receptor`)
with their `step` functions, and the genome container with its persistence layer.

Modelling conventions:
* Rust `f32` concentrations, gains and thresholds are modelled as `ℚ`
  (exact arithmetic; the claims under study are sign/clamping/min-ratio facts,
  none of which hinges on binary rounding).
* `HashMap<Id, _>` tables are modelled as functions `Id → Option _`
  (`none` = key absent).
* Rust indexing `map[&id]`, which panics when the key is absent, is modelled by
  returning `none` from the whole step (`Option` result = may fail fatally).
* The `u8` tick counter `Cell<u8>` is a `Nat`, incremented modulo `2^8` exactly
  where the source increments the `u8`.
* `Receptor::step` in Rust returns `Option<f32>` (the signal) and can *panic*
  on a missing table entry; the embedding returns `Option (Option ℚ)`:
  `none` = fatal lookup failure, `some none` = no signal, `some (some v)` = signal.
-/

namespace LifeSim

/-- `pub type Id = u8;` — chemical identifiers (key values only). -/
abbrev Id := Nat

/-- `pub type Concentration = f32;` modelled as `ℚ`. -/
abbrev Concentration := ℚ

/-- `pub struct Chemical { id: Id, concentration: Concentration }` -/
structure Chemical where
  id : Id
  concentration : Concentration
deriving DecidableEq

/-- `Chemical::new(id)` — zero-initialised. -/
def Chemical.new (id : Id) : Chemical := ⟨id, 0⟩

/-- `Chemical::with_concentration(id, concentration)`. -/
def Chemical.with_concentration (id : Id) (c : Concentration) : Chemical := ⟨id, c⟩

/-- `pub type ChemicalMap = HashMap<Id, Chemical>;` -/
abbrev ChemicalMap := Id → Option Chemical

/-- `pub type DeltaMap = HashMap<Id, Concentration>;` -/
abbrev DeltaMap := Id → Option Concentration

/-- Store value `v` at key `k` (the net effect of `deltas.entry(k).or_insert(..)`
followed by mutation of the entry). -/
def DeltaMap.store (d : DeltaMap) (k : Id) (v : Concentration) : DeltaMap :=
  fun i => if i = k then some v else d i

/-- `pub struct Emitter { chemical: Id, gain: f32 }` -/
structure Emitter where
  chemical : Id
  gain : ℚ
deriving DecidableEq

/-- `Emitter::new`. -/
def Emitter.new (chemical : Id) (gain : ℚ) : Emitter := ⟨chemical, gain⟩

/-- `Emitter::step`: `*val += gain; if *val > 1.0 { *val = 1.0 }` on the entry
`deltas.entry(chemical).or_insert(0.0)`. Total (never fails). -/
def Emitter.step (e : Emitter) (deltas : DeltaMap) : DeltaMap :=
  let val := (deltas e.chemical).getD 0 + e.gain
  DeltaMap.store deltas e.chemical (if val > 1 then 1 else val)

/-- `pub enum ReactionType` — the five reaction payload shapes.
The `Chemical` payloads carry stoichiometric coefficients in their
`concentration` field. -/
inductive ReactionType where
  /-- A + B -> C + D -/
  | Normal (a b c d : Chemical)
  /-- A + B -> C -/
  | Fusion (a b c : Chemical)
  /-- A -> nothing -/
  | Decay (a : Chemical)
  /-- A + B -> A + C -/
  | Catalytic (a b c : Chemical)
  /-- A + B -> A -/
  | CatalyticBreakdown (a b : Chemical)
deriving DecidableEq

/-- The per-entry clamp `if *val > 1.0 { *val = 1.0 } else if *val < 0.0 { *val = 0.0 }`
applied by `Reaction::step` immediately after each accumulator write. -/
def clampEntry (v : ℚ) : ℚ := if v > 1 then 1 else if v < 0 then 0 else v

/-- The `update` closure shared by the `Normal` / `Fusion` / `Catalytic` branches of
`Reaction::step` (and inlined by the `Decay` / `CatalyticBreakdown` branches):
read the entry (default 0), add or subtract `n * stoichiometry`, clamp, store. -/
def ReactionType.update (n : ℚ) (deltas : DeltaMap) (c : Chemical) (add : Bool) : DeltaMap :=
  let val := (deltas c.id).getD 0
  let val := if add then val + n * c.concentration else val - n * c.concentration
  DeltaMap.store deltas c.id (clampEntry val)

/-- The body of `Reaction::step` after the rate gate: the `match self.kind` block.
`none` models the Rust panic on `map[&id]` when `id` is absent from the table. -/
def ReactionType.fire (k : ReactionType) (map : ChemicalMap) (deltas : DeltaMap) :
    Option DeltaMap :=
  match k with
  | .Normal a b c d =>
    match map a.id, map b.id with
    | some ca, some cb =>
      let n := min (ca.concentration / a.concentration) (cb.concentration / b.concentration)
      some (update n (update n (update n (update n deltas a false) b false) c true) d true)
    | _, _ => none
  | .Fusion a b c =>
    match map a.id, map b.id with
    | some ca, some cb =>
      let n := min (ca.concentration / a.concentration) (cb.concentration / b.concentration)
      some (update n (update n (update n deltas a false) b false) c true)
    | _, _ => none
  | .Decay a =>
    match map a.id with
    | some ca =>
      let n := ca.concentration / a.concentration
      some (update n deltas a false)
    | none => none
  | .Catalytic a b c =>
    match map a.id, map b.id with
    | some ca, some cb =>
      let n := min (ca.concentration / a.concentration) (cb.concentration / b.concentration)
      some (update n (update n deltas b false) c true)
    | _, _ => none
  | .CatalyticBreakdown a b =>
    match map a.id, map b.id with
    | some ca, some cb =>
      let n := min (ca.concentration / a.concentration) (cb.concentration / b.concentration)
      some (update n deltas b false)
    | _, _ => none

/-- `pub struct Reaction { kind, rate: u8, tick: Cell<u8> }` -/
structure Reaction where
  kind : ReactionType
  rate : Nat
  tick : Nat
deriving DecidableEq

/-- `Reaction::new(kind, rate)` — tick counter starts at 0. -/
def Reaction.new (kind : ReactionType) (rate : Nat) : Reaction := ⟨kind, rate, 0⟩

/-- `Reaction::step`: increment the `u8` tick (wrapping at `2^8`); if still below
`rate`, return with the accumulator untouched; otherwise reset the tick to 0 and
run the reaction body. The returned `Reaction` is the post-call state of `self`
(the `Cell` mutation made explicit). -/
def Reaction.step (r : Reaction) (map : ChemicalMap) (deltas : DeltaMap) :
    Reaction × Option DeltaMap :=
  let t := (r.tick + 1) % 256
  if t < r.rate then ({ r with tick := t }, some deltas)
  else ({ r with tick := 0 }, r.kind.fire map deltas)

/-- Iterate `Reaction.step` over a list of per-call inputs, tracking the gene-local
mutable tick state across calls. -/
def Reaction.run (r : Reaction) : List (ChemicalMap × DeltaMap) → Reaction
  | [] => r
  | (m, d) :: rest => ((r.step m d).1).run rest

/-- `pub enum ReceptorType` -/
inductive ReceptorType where
  /-- Receptor triggers when concentration is below threshold. -/
  | LowerBound
  /-- Receptor triggers when concentration is above threshold. -/
  | UpperBound
deriving DecidableEq

/-- `pub struct Receptor { kind, chemical: Id, gain: f32, threshold: f32 }` -/
structure Receptor where
  kind : ReceptorType
  chemical : Id
  gain : ℚ
  threshold : ℚ
deriving DecidableEq

/-- `Receptor::new`. -/
def Receptor.new (kind : ReceptorType) (chemical : Id) (gain threshold : ℚ) : Receptor :=
  ⟨kind, chemical, gain, threshold⟩

/-- `Receptor::step`: `prev = map[&chemical].concentration` (outer `none` = panic on a
missing table entry), `curr = prev - deltas.get(&chemical).unwrap_or(0.0)` — note the
source subtracts the accumulator entry — then the strict crossing test.
`some none` = no signal, `some (some v)` = signal `v`. -/
def Receptor.step (rc : Receptor) (map : ChemicalMap) (deltas : DeltaMap) :
    Option (Option ℚ) :=
  match map rc.chemical with
  | none => none
  | some ch =>
    let prev := ch.concentration
    let curr := prev - (deltas rc.chemical).getD 0
    match rc.kind with
    | .LowerBound =>
      some (if prev > rc.threshold ∧ curr < rc.threshold then some (curr * rc.gain) else none)
    | .UpperBound =>
      some (if prev < rc.threshold ∧ curr > rc.threshold then some (curr * rc.gain) else none)

/-- `pub enum Gene` -/
inductive Gene where
  | Emitter (e : Emitter)
  | Reaction (r : Reaction)
  | Receptor (rc : Receptor)
deriving DecidableEq

/-- `pub struct Genome { genes: Vec<Gene> }` -/
structure Genome where
  genes : List Gene
deriving DecidableEq

/-- `Genome::new(genes)`. -/
def Genome.new (genes : List Gene) : Genome := ⟨genes⟩

/-! ## Persistence

The genome's persisted form is produced by `rustc_serialize` derive
implementations and written through `std::fs::File`; neither is code under
`src/`, so the serializer and the file system are modelled from the spec. -/

/-- Modelled from the spec: one token of the persisted structured document
("ids as small integers, floats for gains/thresholds/rates"); `tnat` carries
integer fields and union tags, `trat` carries numeric fields. -/
inductive Token where
  | tnat (n : Nat)
  | trat (q : ℚ)
deriving DecidableEq

/-- Modelled from the spec: encoding of one `Chemical` payload value. -/
def encodeChemical (c : Chemical) : List Token :=
  [.tnat c.id, .trat c.concentration]

/-- Modelled from the spec: decoding of one `Chemical` payload value. -/
def decodeChemical : List Token → Option (Chemical × List Token)
  | .tnat i :: .trat q :: rest => some (⟨i, q⟩, rest)
  | _ => none

/-- Modelled from the spec: encoding of a `ReactionType` as a tagged union. -/
def encodeReactionType : ReactionType → List Token
  | .Normal a b c d =>
    .tnat 0 :: (encodeChemical a ++ encodeChemical b ++ encodeChemical c ++ encodeChemical d)
  | .Fusion a b c =>
    .tnat 1 :: (encodeChemical a ++ encodeChemical b ++ encodeChemical c)
  | .Decay a => .tnat 2 :: encodeChemical a
  | .Catalytic a b c =>
    .tnat 3 :: (encodeChemical a ++ encodeChemical b ++ encodeChemical c)
  | .CatalyticBreakdown a b => .tnat 4 :: (encodeChemical a ++ encodeChemical b)

/-- Modelled from the spec: decoding of a `ReactionType` tagged union. -/
def decodeReactionType : List Token → Option (ReactionType × List Token)
  | .tnat 0 :: rest => do
    let (a, r1) ← decodeChemical rest
    let (b, r2) ← decodeChemical r1
    let (c, r3) ← decodeChemical r2
    let (d, r4) ← decodeChemical r3
    some (.Normal a b c d, r4)
  | .tnat 1 :: rest => do
    let (a, r1) ← decodeChemical rest
    let (b, r2) ← decodeChemical r1
    let (c, r3) ← decodeChemical r2
    some (.Fusion a b c, r3)
  | .tnat 2 :: rest => do
    let (a, r1) ← decodeChemical rest
    some (.Decay a, r1)
  | .tnat 3 :: rest => do
    let (a, r1) ← decodeChemical rest
    let (b, r2) ← decodeChemical r1
    let (c, r3) ← decodeChemical r2
    some (.Catalytic a b c, r3)
  | .tnat 4 :: rest => do
    let (a, r1) ← decodeChemical rest
    let (b, r2) ← decodeChemical r1
    some (.CatalyticBreakdown a b, r2)
  | _ => none

/-- Modelled from the spec: a `Gene` as a tagged union over
`{Emitter, Reaction, Receptor}` with all fields of the variant
(for `Reaction` this includes the serialized tick counter). -/
def encodeGene : Gene → List Token
  | .Emitter e => .tnat 0 :: [.tnat e.chemical, .trat e.gain]
  | .Reaction r => .tnat 1 :: (encodeReactionType r.kind ++ [.tnat r.rate, .tnat r.tick])
  | .Receptor rc =>
    .tnat 2 :: [.tnat (match rc.kind with | .LowerBound => 0 | .UpperBound => 1),
                .tnat rc.chemical, .trat rc.gain, .trat rc.threshold]

/-- Modelled from the spec: decoding of one `Gene` tagged union. -/
def decodeGene : List Token → Option (Gene × List Token)
  | .tnat 0 :: .tnat ch :: .trat gain :: rest => some (.Emitter ⟨ch, gain⟩, rest)
  | .tnat 1 :: rest => do
    let (k, r1) ← decodeReactionType rest
    match r1 with
    | .tnat rate :: .tnat tick :: r2 => some (.Reaction ⟨k, rate, tick⟩, r2)
    | _ => none
  | .tnat 2 :: .tnat kd :: .tnat ch :: .trat gain :: .trat thr :: rest =>
    match kd with
    | 0 => some (.Receptor ⟨.LowerBound, ch, gain, thr⟩, rest)
    | 1 => some (.Receptor ⟨.UpperBound, ch, gain, thr⟩, rest)
    | _ => none
  | _ => none

/-- Modelled from the spec: encoding of the ordered gene sequence. -/
def encodeGenes : List Gene → List Token
  | [] => []
  | g :: gs => encodeGene g ++ encodeGenes gs

/-- Modelled from the spec: decoding of a count-prefixed gene sequence. -/
def decodeGenes : Nat → List Token → Option (List Gene × List Token)
  | 0, ts => some ([], ts)
  | n + 1, ts => do
    let (g, r1) ← decodeGene ts
    let (gs, r2) ← decodeGenes n r1
    some (g :: gs, r2)

/-- Modelled from the spec: `encode(genome)` — the persisted document is the
ordered array of tagged gene unions (here: length-prefixed token sequence). -/
def encodeGenome (g : Genome) : List Token :=
  .tnat g.genes.length :: encodeGenes g.genes

/-- Modelled from the spec: `decode(data)` — fails (`none`) when the content does
not parse into the expected gene-variant schema, including trailing garbage. -/
def decodeGenome (ts : List Token) : Option Genome :=
  match ts with
  | .tnat n :: rest =>
    match decodeGenes n rest with
    | some (gs, []) => some ⟨gs⟩
    | _ => none
  | _ => none

/-- Modelled from the spec: the file system as seen by `Genome::save` /
`Genome::load` — a mapping from paths to stored document contents. -/
abbrev FileStore := String → Option (List Token)

/-- Modelled from the spec: `Genome::save(path)` writes the encoded gene
sequence to the file at `path` (creating or truncating it). -/
def Genome.save (g : Genome) (path : String) (fs : FileStore) : FileStore :=
  fun p => if p = path then some (encodeGenome g) else fs p

/-- Modelled from the spec: `Genome::load(path)` fails if the file is unreadable
(absent) or the content does not decode; otherwise returns the decoded genome. -/
def Genome.load (path : String) (fs : FileStore) : Option Genome :=
  match fs path with
  | none => none
  | some data => decodeGenome data

/-- The identifiers a `ReactionType` looks up in the chemical table when it fires:
exactly the chemicals whose ratios enter the extent computation (products are
only written to the accumulator, never looked up). -/
def ReactionType.reactantIds : ReactionType → List Id
  | .Normal a b _ _ => [a.id, b.id]
  | .Fusion a b _ => [a.id, b.id]
  | .Decay a => [a.id]
  | .Catalytic a b _ => [a.id, b.id]
  | .CatalyticBreakdown a b => [a.id, b.id]

/-- The empty delta accumulator, as created fresh at each tick start. -/
def noDeltas : DeltaMap := fun _ => none

/-- A one-chemical table: chemical 3 at the given concentration. -/
def tableX (c : ℚ) : ChemicalMap := fun i => if i = 3 then some ⟨3, c⟩ else none

/-- A two-chemical table: chemical 1 at 0.4 and chemical 2 at 0.2. -/
def tableAB : ChemicalMap :=
  fun i => if i = 1 then some ⟨1, 2/5⟩ else if i = 2 then some ⟨2, 1/5⟩ else none

/-! ## Helper lemmas -/

theorem clampEntry_nonneg (v : ℚ) : 0 ≤ clampEntry v := by
  unfold clampEntry
  split
  · norm_num
  · split
    · norm_num
    · linarith [le_of_not_lt (by assumption : ¬ v < 0)]

theorem clampEntry_le_one (v : ℚ) : clampEntry v ≤ 1 := by
  unfold clampEntry
  split
  · norm_num
  · split
    · norm_num
    · linarith [le_of_not_lt (by assumption : ¬ v > 1)]

/-- `Reaction.step` written as a single conditional. -/
theorem Reaction.step_eq (r : Reaction) (m : ChemicalMap) (d : DeltaMap) :
    r.step m d = if (r.tick + 1) % 256 < r.rate
      then ({ r with tick := (r.tick + 1) % 256 }, some d)
      else ({ r with tick := 0 }, r.kind.fire m d) := rfl

theorem ReactionType.update_point (n : ℚ) (d : DeltaMap) (c : Chemical) (add : Bool) (i : Id) :
    (ReactionType.update n d c add) i = d i ∨
      ∃ v, (ReactionType.update n d c add) i = some v ∧ 0 ≤ v ∧ v ≤ 1 := by
  by_cases h : i = c.id
  · subst h
    exact Or.inr ⟨clampEntry (if add then (d c.id).getD 0 + n * c.concentration
                              else (d c.id).getD 0 - n * c.concentration),
      by simp [ReactionType.update, DeltaMap.store],
      clampEntry_nonneg _, clampEntry_le_one _⟩
  · exact Or.inl (by simp [ReactionType.update, DeltaMap.store, h])

theorem touched_trans {d1 d2 d3 : DeltaMap} (i : Id)
    (h12 : d2 i = d1 i ∨ ∃ v, d2 i = some v ∧ 0 ≤ v ∧ v ≤ 1)
    (h23 : d3 i = d2 i ∨ ∃ v, d3 i = some v ∧ 0 ≤ v ∧ v ≤ 1) :
    d3 i = d1 i ∨ ∃ v, d3 i = some v ∧ 0 ≤ v ∧ v ≤ 1 := by
  rcases h23 with h23 | h23
  · rcases h12 with h12 | h12
    · exact Or.inl (h23.trans h12)
    · exact Or.inr ⟨h12.choose, h23.trans h12.choose_spec.1, h12.choose_spec.2⟩
  · exact Or.inr h23

theorem ReactionType.fire_touched (k : ReactionType) (m : ChemicalMap) (d d' : DeltaMap)
    (h : k.fire m d = some d') (i : Id) :
    d' i = d i ∨ ∃ v, d' i = some v ∧ 0 ≤ v ∧ v ≤ 1 := by
  cases k with
  | Normal a b c e =>
    cases hma : m a.id with
    | none => simp [ReactionType.fire, hma] at h
    | some ca =>
      cases hmb : m b.id with
      | none => simp [ReactionType.fire, hma, hmb] at h
      | some cb =>
        simp only [ReactionType.fire, hma, hmb, Option.some.injEq] at h
        subst h
        exact touched_trans i
          (touched_trans i
            (touched_trans i (ReactionType.update_point _ _ _ _ i)
              (ReactionType.update_point _ _ _ _ i))
            (ReactionType.update_point _ _ _ _ i))
          (ReactionType.update_point _ _ _ _ i)
  | Fusion a b c =>
    cases hma : m a.id with
    | none => simp [ReactionType.fire, hma] at h
    | some ca =>
      cases hmb : m b.id with
      | none => simp [ReactionType.fire, hma, hmb] at h
      | some cb =>
        simp only [ReactionType.fire, hma, hmb, Option.some.injEq] at h
        subst h
        exact touched_trans i
          (touched_trans i (ReactionType.update_point _ _ _ _ i)
            (ReactionType.update_point _ _ _ _ i))
          (ReactionType.update_point _ _ _ _ i)
  | Decay a =>
    cases hma : m a.id with
    | none => simp [ReactionType.fire, hma] at h
    | some ca =>
      simp only [ReactionType.fire, hma, Option.some.injEq] at h
      subst h
      exact ReactionType.update_point _ _ _ _ i
  | Catalytic a b c =>
    cases hma : m a.id with
    | none => simp [ReactionType.fire, hma] at h
    | some ca =>
      cases hmb : m b.id with
      | none => simp [ReactionType.fire, hma, hmb] at h
      | some cb =>
        simp only [ReactionType.fire, hma, hmb, Option.some.injEq] at h
        subst h
        exact touched_trans i (ReactionType.update_point _ _ _ _ i)
          (ReactionType.update_point _ _ _ _ i)
  | CatalyticBreakdown a b =>
    cases hma : m a.id with
    | none => simp [ReactionType.fire, hma] at h
    | some ca =>
      cases hmb : m b.id with
      | none => simp [ReactionType.fire, hma, hmb] at h
      | some cb =>
        simp only [ReactionType.fire, hma, hmb, Option.some.injEq] at h
        subst h
        exact ReactionType.update_point _ _ _ _ i

theorem Reaction.step_fst (r : Reaction) (m : ChemicalMap) (d : DeltaMap)
    (h1 : 1 ≤ r.rate) (h2 : r.rate ≤ 255) (h3 : r.tick < r.rate) :
    (r.step m d).1 = { r with tick := (r.tick + 1) % r.rate } := by
  rw [Reaction.step_eq]
  have h256 : (r.tick + 1) % 256 = r.tick + 1 := Nat.mod_eq_of_lt (by omega)
  by_cases h4 : (r.tick + 1) % 256 < r.rate
  · rw [if_pos h4]
    have : (r.tick + 1) % r.rate = (r.tick + 1) % 256 := by
      rw [h256, Nat.mod_eq_of_lt (by omega)]
    simp [this]
  · rw [if_neg h4]
    have h5 : r.tick + 1 = r.rate := by omega
    have : (r.tick + 1) % r.rate = 0 := by rw [h5, Nat.mod_self]
    simp [this]

theorem Reaction.run_spec (inputs : List (ChemicalMap × DeltaMap)) :
    ∀ r : Reaction, 1 ≤ r.rate → r.rate ≤ 255 → r.tick < r.rate →
      r.run inputs = { r with tick := (r.tick + inputs.length) % r.rate } := by
  induction inputs with
  | nil =>
    intro r _ _ h3
    show r = { r with tick := (r.tick + 0) % r.rate }
    rw [Nat.add_zero, Nat.mod_eq_of_lt h3]
  | cons p rest ih =>
    intro r h1 h2 h3
    obtain ⟨m, d⟩ := p
    show ((r.step m d).1).run rest = _
    rw [Reaction.step_fst r m d h1 h2 h3]
    rw [ih _ (by simpa using h1) (by simpa using h2)
      (Nat.mod_lt _ (by omega))]
    have : ((r.tick + 1) % r.rate + rest.length) % r.rate
        = (r.tick + (rest.length + 1)) % r.rate := by
      rw [Nat.mod_add_mod]
      congr 1
      omega
    simp [this, List.length_cons]

theorem mod_succ_eq_zero_iff (len rate : Nat) (h1 : 1 ≤ rate) :
    (len + 1) % rate = 0 ↔ len % rate = rate - 1 := by
  have ha : len % rate < rate := Nat.mod_lt _ (by omega)
  constructor
  · intro h
    have key : (len % rate + 1) % rate = 0 := by rw [Nat.mod_add_mod]; exact h
    by_cases hb : len % rate + 1 < rate
    · rw [Nat.mod_eq_of_lt hb] at key; omega
    · omega
  · intro h
    have : (len + 1) % rate = (len % rate + 1) % rate := (Nat.mod_add_mod len rate 1).symm
    rw [this, h, show rate - 1 + 1 = rate by omega, Nat.mod_self]

theorem ReactionType.fire_none_iff (k : ReactionType) (m : ChemicalMap) (d : DeltaMap) :
    k.fire m d = none ↔ ∃ i ∈ k.reactantIds, m i = none := by
  cases k with
  | Normal a b c e =>
    cases hma : m a.id <;> cases hmb : m b.id <;>
      simp [ReactionType.fire, ReactionType.reactantIds, hma, hmb]
  | Fusion a b c =>
    cases hma : m a.id <;> cases hmb : m b.id <;>
      simp [ReactionType.fire, ReactionType.reactantIds, hma, hmb]
  | Decay a =>
    cases hma : m a.id <;>
      simp [ReactionType.fire, ReactionType.reactantIds, hma]
  | Catalytic a b c =>
    cases hma : m a.id <;> cases hmb : m b.id <;>
      simp [ReactionType.fire, ReactionType.reactantIds, hma, hmb]
  | CatalyticBreakdown a b =>
    cases hma : m a.id <;> cases hmb : m b.id <;>
      simp [ReactionType.fire, ReactionType.reactantIds, hma, hmb]

theorem Reaction.step_rate_le_one (r : Reaction) (m : ChemicalMap) (d : DeltaMap)
    (hr : r.rate ≤ 1) (ht : r.tick = 0) :
    r.step m d = (r, r.kind.fire m d) := by
  obtain ⟨k, rate, t⟩ := r
  simp only at ht hr
  subst ht
  rw [Reaction.step_eq]
  norm_num
  omega

theorem Reaction.run_rate_le_one (inputs : List (ChemicalMap × DeltaMap)) :
    ∀ r : Reaction, r.rate ≤ 1 → r.tick = 0 → r.run inputs = r := by
  induction inputs with
  | nil => intro r _ _; rfl
  | cons p rest ih =>
    intro r hr ht
    obtain ⟨m, d⟩ := p
    show ((r.step m d).1).run rest = r
    rw [Reaction.step_rate_le_one r m d hr ht]
    exact ih r hr ht

theorem decodeChemical_encode (c : Chemical) (rest : List Token) :
    decodeChemical (encodeChemical c ++ rest) = some (c, rest) := rfl

theorem decodeReactionType_encode (k : ReactionType) (rest : List Token) :
    decodeReactionType (encodeReactionType k ++ rest) = some (k, rest) := by
  cases k <;>
    simp [encodeReactionType, decodeReactionType, List.append_assoc, decodeChemical_encode]

theorem decodeGene_encode (g : Gene) (rest : List Token) :
    decodeGene (encodeGene g ++ rest) = some (g, rest) := by
  cases g with
  | Emitter e => rfl
  | Reaction r =>
    simp [encodeGene, decodeGene, List.append_assoc, decodeReactionType_encode]
  | Receptor rc =>
    obtain ⟨kd, ch, gn, th⟩ := rc
    cases kd <;> rfl

theorem decodeGenes_encode (gs : List Gene) (rest : List Token) :
    decodeGenes gs.length (encodeGenes gs ++ rest) = some (gs, rest) := by
  induction gs with
  | nil => rfl
  | cons g gs ih =>
    simp [encodeGenes, decodeGenes, List.append_assoc, decodeGene_encode, ih]

theorem decodeGenome_encode (g : Genome) : decodeGenome (encodeGenome g) = some g := by
  have h := decodeGenes_encode g.genes []
  rw [List.append_nil] at h
  simp [encodeGenome, decodeGenome, h]

/-! ## Claim theorems -/

/-- C1: the claim says crossing detection uses `curr = prev + delta`, so a
LowerBound receptor (threshold 0.5, gain 2.0) on a chemical with `prev = 0.6`
and accumulator delta `-0.3` should see `curr = 0.3` and return `Some 0.6`.
The source computes `curr = prev - delta` (lib.rs line 172), giving `curr = 0.9`
at that input: no downward crossing, no signal. This evaluates the embedded
code at the claim's two concrete inputs: both return no signal (`some none`),
where the claim demands `Some 0.6` for the first. -/
theorem receptor_sign_convention_eval :
    (Receptor.new ReceptorType.LowerBound 3 2 (1/2)).step (tableX (3/5))
        (fun i => if i = 3 then some (-(3/10)) else none) = some none ∧
    (Receptor.new ReceptorType.LowerBound 3 2 (1/2)).step (tableX (2/5))
        (fun i => if i = 3 then some (-(3/10)) else none) = some none := by
  constructor <;> norm_num [Receptor.new, Receptor.step, tableX]

/-- C2 counterexample: `Decay(A, stoich=1)` (chemical 3) fired at table
concentration 0.5 on an empty accumulator leaves the entry for A equal to 0,
not `-0.5`: the computed `-0.5` is clamped into `[0,1]` right after the write. -/
theorem decay_delta_counterexample :
    ((Reaction.new (ReactionType.Decay ⟨3, 1⟩) 1).step (tableX (1/2)) noDeltas).2.map
        (fun d => d 3) = some (some 0) ∧
    (some (some (0 : ℚ)) : Option (Option ℚ)) ≠ some (some (-(1/2) : ℚ)) := by
  constructor
  · norm_num [Reaction.new, Reaction.step, ReactionType.fire, ReactionType.update,
      DeltaMap.store, clampEntry, tableX, noDeltas]
  · norm_num

/-- C2 (amended): a Decay reaction on chemical A with stoichiometric coefficient
1, fired on a table concentration of 0.5 and an initially empty accumulator,
computes extent n = 0.5 and writes `-0.5`, which the per-entry clamp immediately
raises to 0 — the accumulator ends with A's entry equal to exactly 0, and no
other entry present. -/
theorem decay_delta_clamped :
    ((Reaction.new (ReactionType.Decay ⟨3, 1⟩) 1).step (tableX (1/2)) noDeltas).2 =
      some (fun i => if i = 3 then some (0 : ℚ) else none) := by
  norm_num [Reaction.new, Reaction.step, ReactionType.fire, ReactionType.update,
    DeltaMap.store, clampEntry, tableX, noDeltas]
  funext i
  by_cases h3 : i = 3 <;> simp [DeltaMap.store, noDeltas, h3]

/-- C4 counterexample: Fusion A(conc 0.4, stoich 1) + B(conc 0.2, stoich 1) → C
fired on an empty accumulator leaves A's entry at 0, not `-0.2`: the negative
write is clamped into `[0,1]`. -/
theorem fusion_delta_counterexample :
    ((Reaction.new (ReactionType.Fusion ⟨1, 1⟩ ⟨2, 1⟩ ⟨3, 1⟩) 1).step tableAB noDeltas).2.map
        (fun d => d 1) = some (some 0) ∧
    (some (some (0 : ℚ)) : Option (Option ℚ)) ≠ some (some (-(1/5) : ℚ)) := by
  constructor
  · norm_num [Reaction.new, Reaction.step, ReactionType.fire, ReactionType.update,
      DeltaMap.store, clampEntry, tableAB, noDeltas, min_def]
  · norm_num

/-- C4 (amended): the firing extent is n = min(0.4/1, 0.2/1) = 0.2 as claimed
(visible in C's entry `+0.2`), but the `-0.2` writes to A and B are clamped up
to 0 immediately, so the accumulator ends with A = 0, B = 0, C = +0.2. -/
theorem fusion_delta_clamped :
    ((Reaction.new (ReactionType.Fusion ⟨1, 1⟩ ⟨2, 1⟩ ⟨3, 1⟩) 1).step tableAB noDeltas).2 =
      some (fun i => if i = 3 then some ((1 : ℚ)/5) else if i = 2 then some 0 else
        if i = 1 then some 0 else none) := by
  norm_num [Reaction.new, Reaction.step, ReactionType.fire, ReactionType.update,
    DeltaMap.store, clampEntry, tableAB, noDeltas, min_def]
  funext i
  by_cases h3 : i = 3 <;> by_cases h2 : i = 2 <;> by_cases h1 : i = 1 <;>
    simp [DeltaMap.store, noDeltas, h1, h2, h3]

/-- C3 counterexample: with rate 0, the first call (k = 1, not a multiple of 0)
fires: the counter is reset to 0 instead of being incremented to 1 and the
reaction body runs, inserting an entry into the empty accumulator. -/
theorem reaction_rate_zero_counterexample :
    (1 : Nat) % 0 ≠ 0 ∧
    ((Reaction.new (ReactionType.Decay ⟨3, 1⟩) 0).step (tableX (1/2)) noDeltas).1.tick ≠
      (Reaction.new (ReactionType.Decay ⟨3, 1⟩) 0).tick + 1 ∧
    ((Reaction.new (ReactionType.Decay ⟨3, 1⟩) 0).step (tableX (1/2)) noDeltas).2.map
        (fun d => d 3) ≠ some (noDeltas 3) := by
  refine ⟨by norm_num, by norm_num [Reaction.new, Reaction.step], ?_⟩
  norm_num [Reaction.new, Reaction.step, ReactionType.fire, ReactionType.update,
    DeltaMap.store, clampEntry, tableX, noDeltas]
  exact Option.some_ne_none 0

/-- C3 (amended to configured rates `r ≥ 1`; rate 0 fires on every call, see the
counterexample): starting from a fresh counter, the k-th call to `step` fires —
resetting the counter to 0 and executing the reaction body — exactly when k is a
multiple of the rate, and every non-firing call returns the accumulator
untouched and only increments the tick counter by 1. -/
theorem reaction_rate_limiter (k : ReactionType) (rate : Nat) (h1 : 1 ≤ rate)
    (h2 : rate ≤ 255) (inputs : List (ChemicalMap × DeltaMap))
    (m : ChemicalMap) (d : DeltaMap) :
    ((Reaction.new k rate).run inputs).step m d =
      if (inputs.length + 1) % rate = 0
      then (Reaction.new k rate, k.fire m d)
      else ({ (Reaction.new k rate).run inputs with
                tick := ((Reaction.new k rate).run inputs).tick + 1 }, some d) := by
  have hrun : (Reaction.new k rate).run inputs
      = { Reaction.new k rate with tick := ((Reaction.new k rate).tick + inputs.length) % rate } :=
    Reaction.run_spec inputs _ h1 h2 (by simp [Reaction.new]; omega)
  rw [hrun]
  simp only [Reaction.new, Nat.zero_add]
  have ha : inputs.length % rate < rate := Nat.mod_lt _ (by omega)
  by_cases hz : (inputs.length + 1) % rate = 0
  · rw [if_pos hz, Reaction.step_eq]
    have hmod : inputs.length % rate = rate - 1 := (mod_succ_eq_zero_iff _ _ h1).mp hz
    have hcond : ¬ ((inputs.length % rate + 1) % 256 < rate) := by
      rw [hmod, show rate - 1 + 1 = rate by omega, Nat.mod_eq_of_lt (by omega)]
      omega
    rw [if_neg hcond]
  · rw [if_neg hz, Reaction.step_eq]
    have hne : inputs.length % rate ≠ rate - 1 :=
      fun hc => hz ((mod_succ_eq_zero_iff _ _ h1).mpr hc)
    have hlt : inputs.length % rate + 1 < rate := by omega
    have h256 : (inputs.length % rate + 1) % 256 = inputs.length % rate + 1 :=
      Nat.mod_eq_of_lt (by omega)
    rw [if_pos (by omega : (inputs.length % rate + 1) % 256 < rate), h256]

/-- Witness for C3: rate 3, two prior calls; the third call fires. -/
theorem reaction_rate_limiter_witness :
    ((Reaction.new (ReactionType.Decay ⟨3, 1⟩) 3).run
        [(tableX (1/2), noDeltas), (tableX (1/2), noDeltas)]).step (tableX (1/2)) noDeltas =
      if (([(tableX (1/2), noDeltas), (tableX (1/2), noDeltas)] :
            List (ChemicalMap × DeltaMap)).length + 1) % 3 = 0
      then (Reaction.new (ReactionType.Decay ⟨3, 1⟩) 3,
            (ReactionType.Decay ⟨3, 1⟩).fire (tableX (1/2)) noDeltas)
      else ({ (Reaction.new (ReactionType.Decay ⟨3, 1⟩) 3).run
                [(tableX (1/2), noDeltas), (tableX (1/2), noDeltas)] with
              tick := ((Reaction.new (ReactionType.Decay ⟨3, 1⟩) 3).run
                [(tableX (1/2), noDeltas), (tableX (1/2), noDeltas)]).tick + 1 },
            some noDeltas) :=
  reaction_rate_limiter (ReactionType.Decay ⟨3, 1⟩) 3 (by norm_num) (by norm_num)
    [(tableX (1/2), noDeltas), (tableX (1/2), noDeltas)] (tableX (1/2)) noDeltas

/-- C5: whenever `Reaction.step` completes (firing or not), every accumulator
entry either is untouched or holds a value that was clamped into `[0, 1]`
immediately after being written. -/
theorem reaction_step_deltas_clamped (r : Reaction) (m : ChemicalMap) (d d' : DeltaMap)
    (h : (r.step m d).2 = some d') (i : Id) :
    d' i = d i ∨ ∃ v, d' i = some v ∧ 0 ≤ v ∧ v ≤ 1 := by
  rw [Reaction.step_eq] at h
  by_cases hc : (r.tick + 1) % 256 < r.rate
  · rw [if_pos hc] at h
    change some d = some d' at h
    injection h with h
    subst h
    exact Or.inl rfl
  · rw [if_neg hc] at h
    change r.kind.fire m d = some d' at h
    exact ReactionType.fire_touched r.kind m d d' h i

/-- Witness for C5: a firing Decay whose written entry is 0 ∈ [0, 1]. -/
theorem reaction_step_deltas_clamped_witness :
    (ReactionType.update ((1/2 : ℚ) / 1) noDeltas ⟨3, 1⟩ false) 3 = noDeltas 3 ∨
    ∃ v, (ReactionType.update ((1/2 : ℚ) / 1) noDeltas ⟨3, 1⟩ false) 3 = some v ∧
      0 ≤ v ∧ v ≤ 1 :=
  reaction_step_deltas_clamped (Reaction.new (ReactionType.Decay ⟨3, 1⟩) 1)
    (tableX (1/2)) noDeltas (ReactionType.update ((1/2 : ℚ) / 1) noDeltas ⟨3, 1⟩ false) rfl 3

/-- C6: `Emitter.step` adds the gain to the accumulator entry for its chemical
(missing entry read as 0), clamps that entry to at most 1 (no lower clamp: the
stored value is exactly `min (old + gain) 1`), and leaves every other entry
untouched. Totality (never fails) is visible in the return type `DeltaMap`. -/
theorem emitter_step_spec (e : Emitter) (deltas : DeltaMap) :
    e.step deltas e.chemical = some (min ((deltas e.chemical).getD 0 + e.gain) 1) ∧
    ∀ i, i ≠ e.chemical → e.step deltas i = deltas i := by
  constructor
  · show DeltaMap.store deltas e.chemical _ e.chemical = _
    rw [DeltaMap.store, if_pos rfl]
    rcases le_or_lt ((deltas e.chemical).getD 0 + e.gain) 1 with h | h
    · rw [if_neg (not_lt.mpr h), min_eq_left h]
    · rw [if_pos h, min_eq_right h.le]
  · intro i hi
    show DeltaMap.store deltas e.chemical _ i = deltas i
    rw [DeltaMap.store, if_neg hi]

/-- Witness for C6 at a concrete emitter and the empty accumulator. -/
theorem emitter_step_spec_witness :
    (Emitter.new 3 (1/4)).step noDeltas 3 =
      some (min ((noDeltas 3).getD 0 + (Emitter.new 3 (1/4)).gain) 1) ∧
    (Emitter.new 3 (1/4)).step noDeltas 5 = noDeltas 5 :=
  ⟨(emitter_step_spec (Emitter.new 3 (1/4)) noDeltas).1,
   (emitter_step_spec (Emitter.new 3 (1/4)) noDeltas).2 5 (by decide)⟩

/-- C7: decoding the encoding of any genome reproduces it field-for-field in the
same order, and `save` to a path followed by `load` from the same path returns a
genome equal to the original (serializer and file store modelled from the spec,
as the derive-generated codec and file IO are outside `src/`). -/
theorem genome_roundtrip (g : Genome) :
    decodeGenome (encodeGenome g) = some g ∧
    ∀ (path : String) (fs : FileStore), Genome.load path (Genome.save g path fs) = some g := by
  refine ⟨decodeGenome_encode g, fun path fs => ?_⟩
  simp [Genome.load, Genome.save, decodeGenome_encode]

/-- C8 counterexample: a Fusion reaction whose product chemical (id 9) is absent
from the table still completes its step — product identifiers are written to the
accumulator but never looked up in the table, so the claimed "fails exactly when
the gene references an absent identifier" is false. -/
theorem reaction_missing_product_counterexample :
    tableAB 9 = none ∧
    (((Reaction.new (ReactionType.Fusion ⟨1, 1⟩ ⟨2, 1⟩ ⟨9, 1⟩) 1).step
        tableAB noDeltas).2).isSome = true := by
  constructor
  · rfl
  · norm_num [Reaction.new, Reaction.step, ReactionType.fire, ReactionType.update,
      DeltaMap.store, clampEntry, tableAB, noDeltas, min_def]

/-- C8 (amended): a step fails exactly when it performs a table lookup of an
absent identifier. A Receptor always looks up its watched chemical, so its step
fails iff that identifier is absent. A Reaction looks up only its reactants
(the chemicals entering the min-ratio extent computation) and only on a firing
call; products and non-firing calls never cause failure. In particular, when
every looked-up identifier is present the step completes. -/
theorem step_lookup_failure (r : Reaction) (rc : Receptor) (m : ChemicalMap) (d : DeltaMap) :
    ((r.step m d).2 = none ↔
      ¬ ((r.tick + 1) % 256 < r.rate) ∧ ∃ i ∈ r.kind.reactantIds, m i = none) ∧
    (rc.step m d = none ↔ m rc.chemical = none) := by
  constructor
  · rw [Reaction.step_eq]
    by_cases hc : (r.tick + 1) % 256 < r.rate
    · rw [if_pos hc]
      simp [hc]
    · rw [if_neg hc]
      simp [hc, ReactionType.fire_none_iff]
  · cases hm : m rc.chemical with
    | none => simp [Receptor.step, hm]
    | some ch => cases hk : rc.kind <;> simp [Receptor.step, hm, hk]

/-- C9: starting from `Reaction.new` with rate `r ≥ 1` (as a `u8`, `r ≤ 255`),
the tick counter starts at 0, stays in `[0, r-1]` after any number of calls, and
its increment never reaches 2^8 — the `u8` increment cannot overflow. -/
theorem reaction_tick_invariant (k : ReactionType) (rate : Nat) (h1 : 1 ≤ rate)
    (h2 : rate ≤ 255) (inputs : List (ChemicalMap × DeltaMap)) :
    (Reaction.new k rate).tick = 0 ∧
    ((Reaction.new k rate).run inputs).tick ≤ rate - 1 ∧
    ((Reaction.new k rate).run inputs).tick + 1 < 256 := by
  have hrun : (Reaction.new k rate).run inputs
      = { Reaction.new k rate with tick := ((Reaction.new k rate).tick + inputs.length) % rate } :=
    Reaction.run_spec inputs _ h1 h2 (by simp [Reaction.new]; omega)
  refine ⟨rfl, ?_, ?_⟩ <;>
  · rw [hrun]
    have := Nat.mod_lt ((Reaction.new k rate).tick + inputs.length) (show 0 < rate by omega)
    simp only [Reaction.new] at this ⊢
    omega

/-- Witness for C9 at rate 3 after one call. -/
theorem reaction_tick_invariant_witness :
    (Reaction.new (ReactionType.Decay ⟨3, 1⟩) 3).tick = 0 ∧
    ((Reaction.new (ReactionType.Decay ⟨3, 1⟩) 3).run [(tableX (1/2), noDeltas)]).tick ≤ 3 - 1 ∧
    ((Reaction.new (ReactionType.Decay ⟨3, 1⟩) 3).run [(tableX (1/2), noDeltas)]).tick + 1 < 256 :=
  reaction_tick_invariant (ReactionType.Decay ⟨3, 1⟩) 3 (by norm_num) (by norm_num)
    [(tableX (1/2), noDeltas)]

/-- C10: a reaction constructed with rate 0 or rate 1 fires on every call — after
any number of prior calls, `step` executes the body and returns to the fresh
state. The observable behavior (`(·).2` and the successor state's counter)
depends only on the reaction kind, so rates 0 and 1 are indistinguishable at the
step interface. -/
theorem reaction_rate_zero_one (k : ReactionType) (rate : Nat) (hr : rate ≤ 1)
    (inputs : List (ChemicalMap × DeltaMap)) (m : ChemicalMap) (d : DeltaMap) :
    ((Reaction.new k rate).run inputs).step m d = (Reaction.new k rate, k.fire m d) := by
  rw [Reaction.run_rate_le_one inputs (Reaction.new k rate) hr rfl]
  exact Reaction.step_rate_le_one (Reaction.new k rate) m d hr rfl

/-- Witness for C10 at rate 0 after one prior call. -/
theorem reaction_rate_zero_one_witness :
    ((Reaction.new (ReactionType.Decay ⟨3, 1⟩) 0).run
        [(tableX (1/2), noDeltas)]).step (tableX (1/2)) noDeltas =
      (Reaction.new (ReactionType.Decay ⟨3, 1⟩) 0,
       (ReactionType.Decay ⟨3, 1⟩).fire (tableX (1/2)) noDeltas) :=
  reaction_rate_zero_one (ReactionType.Decay ⟨3, 1⟩) 0 (by norm_num)
    [(tableX (1/2), noDeltas)] (tableX (1/2)) noDeltas

end LifeSim
